import Mathlib

/-!
Shallow embedding, in Lean 4, of the parts of the `metcam` repository
(`footballvision` C++ namespace) that the verified claims concern:

* `NVMMBufferManager` (src/video-pipeline/gstreamer-core/src/nvmm_buffer_manager.cpp)
* `StreamSync`        (src/video-pipeline/stream-sync/src/stream_sync.cpp)
* `PipelineMonitor`   (src/video-pipeline/pipeline-monitor/src/pipeline_monitor.cpp)
* `CameraControl`     (src/video-pipeline/camera-control/src/camera_control.cpp)
* `RecoverySystem`    (src/video-pipeline/recovery-system/src/recovery_system.cpp)

Conventions of the embedding:

* Machine integers become `Nat`/`Int`.  Where two's-complement wraparound is
  semantically relevant (the `uint64` timestamp subtraction reinterpreted as
  `int64` in `StreamSync::SyncFrame`) it is modelled explicitly with `% 2^64`;
  event counters (`used_buffers`, `corrections`, `frames_dropped`) are plain
  `Nat`s, since they only ever move by one per call and the claims do not
  concern their 2^32/2^64 wraparound.
* `double` values that are only ever compared against, or set to, exactly
  representable constants (gain bounds 1.0/4.0, confidence 1.0/0.5) become `Rat`.
* Heap pointers into the buffer pool are modelled by the pool index of the
  buffer they point to (`buffer_pool[i]` is a distinct allocation for each `i`,
  so pointer equality `buffer_pool[i] == buffer` holds for at most one `i`);
  a pointer to memory outside the pool is modelled by any index `≥ total`,
  and the C++ `nullptr` by `Option.none`.
-/

namespace FootballVision

/-! ### NVMMBufferManager (nvmm_buffer_manager.cpp)

State of `NVMMBufferManager::Impl`: the availability bitmap
`std::vector<bool> buffer_available`, and the counters `used_buffers` and
`total_buffers`.  The `buffer_pool` vector of heap pointers is represented
implicitly: the buffer at slot `i` is identified by the index `i`.
-/

structure PoolState where
  available : List Bool
  used : Nat
  total : Nat
  deriving Repr, DecidableEq

/-- Number of `true` entries of the availability bitmap; this is what
`NVMMBufferManager::GetAvailableBuffers` computes by iterating the vector. -/
def countTrue : List Bool → Nat
  | [] => 0
  | true :: rest => countTrue rest + 1
  | false :: rest => countTrue rest

/-- `NVMMBufferManager::GetAvailableBuffers`. -/
def getAvailableBuffers (s : PoolState) : Nat :=
  countTrue s.available

/-- `NVMMBufferManager::Initialize` with `config.num_buffers = n`: resizes the
pool to `n` slots, marks every slot available, and sets
`total_buffers := n`, `used_buffers := 0`. -/
def initPool (n : Nat) : PoolState :=
  { available := List.replicate n true, used := 0, total := n }

/-- `NVMMBufferManager::AcquireBuffer`: scan slots `0, 1, …, total_buffers-1`
in order; the first slot with `buffer_available[i]` is marked unavailable,
`used_buffers` is incremented, and (the pointer to) buffer `i` is returned;
if no slot is available, return `nullptr` (`none`).
(The scan bound `total_buffers` always equals `buffer_available.size` after
`Initialize`, expressed here by scanning `available.take total`.) -/
def acquireBuffer (s : PoolState) : Option Nat × PoolState :=
  match (s.available.take s.total).findIdx? (fun b => b) with
  | some i =>
      (some i, { s with available := s.available.set i false, used := s.used + 1 })
  | none => (none, s)

/-- `NVMMBufferManager::ReleaseBuffer`: a null pointer returns at once; the
pool is scanned for the slot `i` with `buffer_pool[i] == buffer` (in the
index model: `i = p`, found exactly when `p < total_buffers`); a slot that is
already available is a detected double release and returns without change;
otherwise the slot is marked available and `used_buffers` is decremented.
A pointer matching no slot (`p ≥ total`) returns without change.
(`used_buffers--` is `Nat` subtraction: in every state reachable from
`Initialize` the decrement only happens with `used_buffers ≥ 1`.) -/
def releaseBuffer (s : PoolState) (p : Option Nat) : PoolState :=
  match p with
  | none => s
  | some i =>
      if i < s.total then
        if s.available.getD i false then s
        else { s with available := s.available.set i true, used := s.used - 1 }
      else s

/-- `NVMMBufferManager::IsHealthy`: `GetAvailableBuffers() ≥ total_buffers / 5`
(C++ unsigned integer division, i.e. floor). -/
def poolIsHealthy (s : PoolState) : Bool :=
  getAvailableBuffers s ≥ s.total / 5

/-- Well-formedness of a pool state, as established by `Initialize(n)`:
`total_buffers = n`, the bitmap has `n` slots, and the bitmap's free count
plus `used_buffers` equals `n`. -/
def PoolInv (n : Nat) (s : PoolState) : Prop :=
  s.total = n ∧ s.available.length = n ∧ countTrue s.available + s.used = n

/-- A single client call on the pool, for reasoning about call sequences. -/
inductive PoolOp where
  | acquire : PoolOp
  | release : Option Nat → PoolOp
  deriving Repr, DecidableEq

def applyOp (s : PoolState) : PoolOp → PoolState
  | .acquire => (acquireBuffer s).2
  | .release p => releaseBuffer s p

def runOps (s : PoolState) : List PoolOp → PoolState
  | [] => s
  | op :: rest => runOps (applyOp s op) rest

/-! ### StreamSync (stream_sync.cpp) -/

/-- State of `StreamSync::Impl`: configured stream count, the per-stream
`last_timestamps` vector (`uint64` nanosecond values), the `corrections`
counter and the running `max_drift_ns`. -/
structure SyncState where
  numStreams : Nat
  lastTimestamps : List Nat
  corrections : Nat
  maxDriftNs : Int
  deriving Repr, DecidableEq

/-- `StreamSync::Initialize(num_streams)`: store the count and resize the
timestamp vector to `num_streams` zeros. -/
def initSync (numStreams : Nat) : SyncState :=
  { numStreams := numStreams
    lastTimestamps := List.replicate numStreams 0
    corrections := 0
    maxDriftNs := 0 }

/-- The `int64_t drift = last_timestamps[0] - last_timestamps[1]` of
`StreamSync::SyncFrame`: a `uint64` subtraction (wraps modulo `2^64`) whose
result is reinterpreted as a two's-complement `int64`. -/
def driftOf (t0 t1 : Nat) : Int :=
  let v : Nat := (t0 + 2 ^ 64 - t1) % 2 ^ 64
  if v < 2 ^ 63 then (v : Int) else (v : Int) - 2 ^ 64

/-- `StreamSync::SyncFrame(stream_id, timestamp_ns)`: an out-of-range
`stream_id` returns `false` with no state change; otherwise the timestamp is
recorded, and — when exactly 2 streams are configured — the drift between the
two recorded timestamps is computed, the running maximum of `|drift|` is
updated, and `corrections` is incremented when `|drift| > 16000000` ns. -/
def syncFrame (s : SyncState) (streamId : Nat) (timestampNs : Nat) :
    Bool × SyncState :=
  if streamId ≥ s.numStreams then (false, s)
  else
    let lt := s.lastTimestamps.set streamId timestampNs
    if s.numStreams = 2 then
      let drift := driftOf (lt.getD 0 0) (lt.getD 1 0)
      let s' : SyncState :=
        { s with
          lastTimestamps := lt
          maxDriftNs := max s.maxDriftNs |drift|
          corrections := if |drift| > 16000000 then s.corrections + 1 else s.corrections }
      (true, s')
    else (true, { s with lastTimestamps := lt })

/-- `StreamSync::GetTimestampDrift`: `0` unless exactly 2 streams are
configured, otherwise the (wrapped, sign-reinterpreted) difference of the two
last timestamps. -/
def getTimestampDrift (s : SyncState) : Int :=
  if s.numStreams ≠ 2 then 0
  else driftOf (s.lastTimestamps.getD 0 0) (s.lastTimestamps.getD 1 0)

/-- The `SyncStatus` struct returned by `StreamSync::GetSyncStatus`.
`sync_confidence` is a `double` that only ever takes the exactly representable
values `1.0` and `0.5`, modelled as `Rat`. -/
structure SyncStatus where
  timestampDriftNs : Int
  correctionsApplied : Nat
  isSynchronized : Bool
  syncConfidence : Rat
  deriving Repr, DecidableEq

/-- `StreamSync::GetSyncStatus`: drift from `GetTimestampDrift`,
`is_synchronized := |drift| < 33000000`, confidence `1.0` when synchronized
and `0.5` otherwise. -/
def getSyncStatus (s : SyncState) : SyncStatus :=
  let drift := getTimestampDrift s
  let synced : Bool := |drift| < 33000000
  { timestampDriftNs := drift
    correctionsApplied := s.corrections
    isSynchronized := synced
    syncConfidence := if synced then 1 else (1 : Rat) / 2 }

/-! ### PipelineMonitor (pipeline_monitor.cpp) -/

/-- State of `PipelineMonitor::Impl` relevant to health: the two per-camera
dropped-frame counters and the `running` flag.  (The alert deque and
callbacks do not enter `IsHealthy`.) -/
structure MonitorState where
  framesDropped0 : Nat
  framesDropped1 : Nat
  running : Bool
  deriving Repr, DecidableEq

/-- `PipelineMonitor::GetTotalFrameDrops`:
`frames_dropped[0] + frames_dropped[1]`. -/
def getTotalFrameDrops (m : MonitorState) : Nat :=
  m.framesDropped0 + m.framesDropped1

/-- `PipelineMonitor::IsHealthy`: `running && GetTotalFrameDrops() == 0`.
The monitor consults nothing else: no buffer pool, no pipeline states. -/
def monitorIsHealthy (m : MonitorState) : Bool :=
  m.running && getTotalFrameDrops m == 0

/-- The capture-pipeline states of the system (interfaces.h `PipelineState`
plus the spec's Recovery condition), used to express claim C4, which ranges
over the states of the two capture pipelines and the buffer pool alongside
the monitor. -/
inductive CaptureState where
  | idle | starting | recording | stopping | finalizing | ready | error | recovery
  deriving Repr, DecidableEq

/-- A combined system snapshot: the monitor together with the buffer pool and
the per-camera capture-pipeline states that claim C4 quantifies over.
`PipelineMonitor::IsHealthy` receives no reference to `pool` or `pipelines`;
the snapshot exists to state (and refute) the claimed equivalence. -/
structure SystemSnapshot where
  monitor : MonitorState
  pool : PoolState
  pipeline0 : CaptureState
  pipeline1 : CaptureState
  deriving Repr, DecidableEq

/-- The right-hand side of claim C4, read off the spec:
running ∧ total_drops = 0 ∧ pool.is_healthy() ∧ both pipelines in
{Recording, Ready, Idle, Starting, Stopping, Finalizing}. -/
def specHealthy (sys : SystemSnapshot) : Prop :=
  sys.monitor.running = true ∧
  getTotalFrameDrops sys.monitor = 0 ∧
  poolIsHealthy sys.pool = true ∧
  ∀ c ∈ [sys.pipeline0, sys.pipeline1],
    c ≠ CaptureState.error ∧ c ≠ CaptureState.recovery

instance : DecidablePred specHealthy := fun sys => by
  unfold specHealthy
  infer_instance

/-! ### CameraControl (camera_control.cpp)

The stored settings relevant to the setter claims: `current_exposure_us`,
`current_gain` and `config_.framerate`. -/

structure CameraState where
  currentExposureUs : Nat
  currentGain : Rat
  framerate : Nat
  deriving Repr, DecidableEq

/-- `CameraControl::SetExposure(exposure_us)`: values outside `[500, 2000]` µs
are rejected (`false`) with no change; accepted values are stored. -/
def setExposure (c : CameraState) (exposureUs : Nat) : Bool × CameraState :=
  if exposureUs < 500 ∨ exposureUs > 2000 then (false, c)
  else (true, { c with currentExposureUs := exposureUs })

/-- `CameraControl::SetGain(gain)`: values outside `[1.0, 4.0]` are rejected
(`false`) with no change; accepted values are stored.  The `double` argument
is modelled as `Rat`: every comparison the claims exercise is against the
exactly representable bounds 1.0 and 4.0, and the decimal literals 0.99 and
4.01 round to doubles strictly outside the closed interval, as the rationals
are. -/
def setGain (c : CameraState) (gain : Rat) : Bool × CameraState :=
  if gain < 1 ∨ gain > 4 then (false, c)
  else (true, { c with currentGain := gain })

/-- `CameraControl::SetFrameRate(fps)`: values outside `[1, 60]` are rejected
(`false`) with no change; accepted values are stored in `config_.framerate`. -/
def setFrameRate (c : CameraState) (fps : Nat) : Bool × CameraState :=
  if fps < 1 ∨ fps > 60 then (false, c)
  else (true, { c with framerate := fps })

/-! ### RecoverySystem (recovery_system.cpp) -/

/-- `PipelineState` from interfaces.h, as checkpointed in `RecordingStatus`. -/
inductive PipelineState where
  | idle | starting | recording | stopping | finalizing | error
  deriving Repr, DecidableEq

/-- The checkpointed `RecordingStatus` fields that `DetermineAction` reads:
the session `state` and the two `frames_dropped` counters. -/
structure RecordingStatus where
  state : PipelineState
  framesDropped0 : Nat
  framesDropped1 : Nat
  deriving Repr, DecidableEq

/-- `RecoveryAction` from recovery_system.h. -/
inductive RecoveryAction where
  | restartPipeline | restartCamera | restartEncoder | salvageRecording | fullReset
  deriving Repr, DecidableEq

/-- State of `RecoverySystem::Impl` that `DetermineAction` reads: whether a
checkpoint state file exists and the last checkpointed status. -/
structure RecoveryImpl where
  stateExists : Bool
  lastState : RecordingStatus
  deriving Repr, DecidableEq

/-- `RecoverySystem::DetermineAction`: `FULL_RESET` with no checkpoint;
`RESTART_PIPELINE` when the checkpointed state is `ERROR`;
`RESTART_ENCODER` when either checkpointed drop counter exceeds 100;
`RESTART_PIPELINE` otherwise. -/
def determineAction (r : RecoveryImpl) : RecoveryAction :=
  if r.stateExists = false then RecoveryAction.fullReset
  else if r.lastState.state = PipelineState.error then RecoveryAction.restartPipeline
  else if r.lastState.framesDropped0 > 100 ∨ r.lastState.framesDropped1 > 100 then
    RecoveryAction.restartEncoder
  else RecoveryAction.restartPipeline

/-! ## Lemmas about the availability-bitmap count -/

theorem countTrue_replicate (n : Nat) : countTrue (List.replicate n true) = n := by
  induction n with
  | zero => rfl
  | succ n ih => simp [List.replicate_succ, countTrue, ih]

theorem countTrue_le_length (l : List Bool) : countTrue l ≤ l.length := by
  induction l with
  | nil => simp [countTrue]
  | cons b rest ih =>
    cases b <;> simp [countTrue] <;> omega

theorem countTrue_pos_iff (l : List Bool) : 0 < countTrue l ↔ true ∈ l := by
  induction l with
  | nil => simp [countTrue]
  | cons b rest ih =>
    cases b <;> simp [countTrue, ih]

theorem countTrue_set_false (l : List Bool) (i : Nat) (h : l[i]? = some true) :
    countTrue (l.set i false) + 1 = countTrue l := by
  induction l generalizing i with
  | nil => simp at h
  | cons b rest ih =>
    cases i with
    | zero =>
      simp only [List.getElem?_cons_zero, Option.some.injEq] at h
      subst h
      simp [List.set, countTrue]
    | succ j =>
      simp only [List.getElem?_cons_succ] at h
      have := ih j h
      cases b <;> simp [List.set, countTrue] <;> omega

theorem countTrue_set_true (l : List Bool) (i : Nat) (h : l[i]? = some false) :
    countTrue (l.set i true) = countTrue l + 1 := by
  induction l generalizing i with
  | nil => simp at h
  | cons b rest ih =>
    cases i with
    | zero =>
      simp only [List.getElem?_cons_zero, Option.some.injEq] at h
      subst h
      simp [List.set, countTrue]
    | succ j =>
      simp only [List.getElem?_cons_succ] at h
      have := ih j h
      cases b <;> simp [List.set, countTrue] <;> omega

theorem countTrue_lt_length (l : List Bool) (i : Nat) (h : l[i]? = some false) :
    countTrue l < l.length := by
  induction l generalizing i with
  | nil => simp at h
  | cons b rest ih =>
    cases i with
    | zero =>
      simp only [List.getElem?_cons_zero, Option.some.injEq] at h
      subst h
      have := countTrue_le_length rest
      simp only [countTrue, List.length_cons]
      omega
    | succ j =>
      simp only [List.getElem?_cons_succ] at h
      have := ih j h
      cases b <;> simp [countTrue] <;> omega

/-! ## The pool invariant is established by Initialize and preserved -/

/-- In a well-formed state the scan bound `total_buffers` covers exactly the
bitmap, so `AcquireBuffer`'s loop is a first-index search over it. -/
theorem acquireBuffer_eq (s : PoolState) (h : s.available.length = s.total) :
    acquireBuffer s =
      match s.available.findIdx? (fun b => b) with
      | some i =>
          (some i, { s with available := s.available.set i false, used := s.used + 1 })
      | none => (none, s) := by
  unfold acquireBuffer
  rw [← h, List.take_length]

/-- `ReleaseBuffer` on a non-null pointer, with the `match` unfolded. -/
theorem releaseBuffer_some (s : PoolState) (i : Nat) :
    releaseBuffer s (some i) =
      if i < s.total then
        if s.available.getD i false then s
        else { s with available := s.available.set i true, used := s.used - 1 }
      else s := rfl

theorem poolInv_init (n : Nat) : PoolInv n (initPool n) := by
  refine ⟨rfl, List.length_replicate n true, ?_⟩
  simp [initPool, countTrue_replicate]

theorem poolInv_acquire {n : Nat} {s : PoolState} (h : PoolInv n s) :
    PoolInv n (acquireBuffer s).2 := by
  obtain ⟨ht, hl, hc⟩ := h
  rw [acquireBuffer_eq s (by rw [hl, ht])]
  cases hf : s.available.findIdx? (fun b => b) with
  | none => exact ⟨ht, hl, hc⟩
  | some i =>
    rw [List.findIdx?_eq_some_iff_getElem] at hf
    obtain ⟨hi, hpi, _⟩ := hf
    have hget : s.available[i]? = some true := by
      rw [List.getElem?_eq_getElem hi]
      simpa using hpi
    have hset := countTrue_set_false s.available i hget
    exact ⟨ht, by simp [hl], by simp only; omega⟩

theorem poolInv_release {n : Nat} {s : PoolState} {p : Option Nat} (h : PoolInv n s) :
    PoolInv n (releaseBuffer s p) := by
  obtain ⟨ht, hl, hc⟩ := h
  cases p with
  | none => exact ⟨ht, hl, hc⟩
  | some i =>
    rw [releaseBuffer_some]
    by_cases hlt : i < s.total
    · rw [if_pos hlt]
      cases hav : s.available.getD i false with
      | true => rw [if_pos rfl]; exact ⟨ht, hl, hc⟩
      | false =>
        have hib : i < s.available.length := by omega
        have hget : s.available[i]? = some false := by
          rw [List.getD_eq_getElem?_getD, List.getElem?_eq_getElem hib] at hav
          rw [List.getElem?_eq_getElem hib]
          simpa using hav
        have hset := countTrue_set_true s.available i hget
        have hlt' := countTrue_lt_length s.available i hget
        rw [if_neg (by simp)]
        exact ⟨ht, by simp [hl], by simp only; omega⟩
    · rw [if_neg hlt]
      exact ⟨ht, hl, hc⟩

theorem poolInv_applyOp {n : Nat} {s : PoolState} (h : PoolInv n s) (op : PoolOp) :
    PoolInv n (applyOp s op) := by
  cases op with
  | acquire => exact poolInv_acquire h
  | release p => exact poolInv_release h

theorem poolInv_runOps {n : Nat} {s : PoolState} (h : PoolInv n s) (ops : List PoolOp) :
    PoolInv n (runOps s ops) := by
  induction ops generalizing s with
  | nil => exact h
  | cons op rest ih => exact ih (poolInv_applyOp h op)

/-- C1: after `Initialize` with `n` buffers, every sequence of
`AcquireBuffer`/`ReleaseBuffer` calls leaves free + in-use = n, the recorded
total still n, and the availability-bitmap count equal to
`total_buffers - used_buffers` (so the free and in-use sets, which are the
`true` and `false` slots of the one bitmap, are disjoint and partition the
pool). -/
theorem pool_partition_invariant (n : Nat) (ops : List PoolOp) :
    getAvailableBuffers (runOps (initPool n) ops) + (runOps (initPool n) ops).used = n ∧
    (runOps (initPool n) ops).total = n ∧
    getAvailableBuffers (runOps (initPool n) ops) =
      (runOps (initPool n) ops).total - (runOps (initPool n) ops).used := by
  obtain ⟨ht, hl, hc⟩ := poolInv_runOps (poolInv_init n) ops
  unfold getAvailableBuffers
  omega

/-- Concrete run of C1: a pool of 2 buffers under acquire, acquire,
release 0, double-release 0, acquire, release of foreign pointer 7. -/
theorem pool_partition_invariant_witness :
    getAvailableBuffers (runOps (initPool 2)
        [PoolOp.acquire, PoolOp.acquire, PoolOp.release (some 0),
         PoolOp.release (some 0), PoolOp.acquire, PoolOp.release (some 7)]) +
      (runOps (initPool 2)
        [PoolOp.acquire, PoolOp.acquire, PoolOp.release (some 0),
         PoolOp.release (some 0), PoolOp.acquire, PoolOp.release (some 7)]).used = 2 ∧
    (runOps (initPool 2)
        [PoolOp.acquire, PoolOp.acquire, PoolOp.release (some 0),
         PoolOp.release (some 0), PoolOp.acquire, PoolOp.release (some 7)]).total = 2 ∧
    getAvailableBuffers (runOps (initPool 2)
        [PoolOp.acquire, PoolOp.acquire, PoolOp.release (some 0),
         PoolOp.release (some 0), PoolOp.acquire, PoolOp.release (some 7)]) =
      (runOps (initPool 2)
        [PoolOp.acquire, PoolOp.acquire, PoolOp.release (some 0),
         PoolOp.release (some 0), PoolOp.acquire, PoolOp.release (some 7)]).total -
      (runOps (initPool 2)
        [PoolOp.acquire, PoolOp.acquire, PoolOp.release (some 0),
         PoolOp.release (some 0), PoolOp.acquire, PoolOp.release (some 7)]).used :=
  pool_partition_invariant 2
    [PoolOp.acquire, PoolOp.acquire, PoolOp.release (some 0),
     PoolOp.release (some 0), PoolOp.acquire, PoolOp.release (some 7)]

/-! ## AcquireBuffer / ReleaseBuffer behaviour (C2, C3) -/

theorem acquire_success {n : Nat} {s : PoolState} (h : PoolInv n s)
    (hp : 0 < getAvailableBuffers s) :
    ∃ i, (acquireBuffer s).1 = some i ∧
      s.available[i]? = some true ∧
      (∀ j, j < i → s.available[j]? = some false) ∧
      (acquireBuffer s).2 =
        { s with available := s.available.set i false, used := s.used + 1 } := by
  obtain ⟨ht, hl, hc⟩ := h
  rw [acquireBuffer_eq s (by rw [hl, ht])]
  have hm : true ∈ s.available := (countTrue_pos_iff _).mp hp
  have hsome : (s.available.findIdx? (fun b => b)).isSome := by
    rw [List.findIdx?_isSome]
    exact List.any_eq_true.mpr ⟨true, hm, rfl⟩
  cases hfi : s.available.findIdx? (fun b => b) with
  | none => rw [hfi] at hsome; simp at hsome
  | some i =>
    rw [List.findIdx?_eq_some_iff_getElem] at hfi
    obtain ⟨hi, hpi, hmin⟩ := hfi
    refine ⟨i, rfl, ?_, ?_, rfl⟩
    · rw [List.getElem?_eq_getElem hi]
      simpa using hpi
    · intro j hj
      have hjl : j < s.available.length := Nat.lt_trans hj hi
      rw [List.getElem?_eq_getElem hjl]
      have := hmin j hj
      simp only [Bool.not_eq_true] at this
      simpa using this

theorem acquire_exhausted {n : Nat} {s : PoolState} (h : PoolInv n s)
    (hz : getAvailableBuffers s = 0) : acquireBuffer s = (none, s) := by
  obtain ⟨ht, hl, hc⟩ := h
  rw [acquireBuffer_eq s (by rw [hl, ht])]
  have hnone : s.available.findIdx? (fun b => b) = none := by
    rw [List.findIdx?_eq_none_iff]
    intro x hx
    cases x with
    | true =>
      exfalso
      have := (countTrue_pos_iff s.available).mpr hx
      unfold getAvailableBuffers at hz
      omega
    | false => rfl
  rw [hnone]

theorem free_acquire {n : Nat} {s : PoolState} (h : PoolInv n s)
    (hp : 0 < getAvailableBuffers s) :
    getAvailableBuffers (acquireBuffer s).2 + 1 = getAvailableBuffers s := by
  obtain ⟨i, -, hget, -, hst⟩ := acquire_success h hp
  rw [hst]
  exact countTrue_set_false _ i hget

theorem runOps_append (s : PoolState) (ops1 ops2 : List PoolOp) :
    runOps s (ops1 ++ ops2) = runOps (runOps s ops1) ops2 := by
  induction ops1 generalizing s with
  | nil => rfl
  | cons op rest ih => simp [runOps, ih]

/-- After `k ≤ n` consecutive acquires on a fresh pool of `n` buffers, `n - k`
buffers remain free. -/
theorem free_after_acquires (n k : Nat) (hk : k ≤ n) :
    getAvailableBuffers (runOps (initPool n) (List.replicate k PoolOp.acquire)) = n - k := by
  induction k with
  | zero =>
    simp [runOps, getAvailableBuffers, initPool, countTrue_replicate]
  | succ k ih =>
    have hk' : k ≤ n := Nat.le_of_succ_le hk
    have hfree := ih hk'
    have hinv := poolInv_runOps (poolInv_init n) (List.replicate k PoolOp.acquire)
    rw [List.replicate_succ', runOps_append]
    have hpos : 0 < getAvailableBuffers (runOps (initPool n) (List.replicate k PoolOp.acquire)) := by
      omega
    have := free_acquire hinv hpos
    simp only [runOps, applyOp]
    omega

/-- C2: `AcquireBuffer` returns the lowest-indexed free buffer and marks it
in-use when one is free, returns `nullptr` leaving the pool unchanged when
all buffers are in use; on a fresh pool of `n` buffers the acquire performed
after any `k < n` acquires succeeds, the acquire after `n` acquires returns
`nullptr`, and after a single release of any buffer `p` of the exhausted pool
the next acquire succeeds. -/
theorem pool_acquire_spec (n : Nat) (s : PoolState) (hs : PoolInv n s)
    (k p : Nat) (hk : k < n) (hp : p < n) :
    (0 < getAvailableBuffers s →
      ∃ i, (acquireBuffer s).1 = some i ∧
        s.available[i]? = some true ∧
        (∀ j, j < i → s.available[j]? = some false) ∧
        (acquireBuffer s).2 =
          { s with available := s.available.set i false, used := s.used + 1 }) ∧
    (getAvailableBuffers s = 0 → acquireBuffer s = (none, s)) ∧
    (acquireBuffer (runOps (initPool n) (List.replicate k PoolOp.acquire))).1.isSome = true ∧
    (acquireBuffer (runOps (initPool n) (List.replicate n PoolOp.acquire))).1 = none ∧
    (acquireBuffer (releaseBuffer
        (runOps (initPool n) (List.replicate n PoolOp.acquire)) (some p))).1.isSome = true := by
  have hinvk := poolInv_runOps (poolInv_init n) (List.replicate k PoolOp.acquire)
  have hinvn := poolInv_runOps (poolInv_init n) (List.replicate n PoolOp.acquire)
  refine ⟨fun hpos => acquire_success hs hpos, fun hz => acquire_exhausted hs hz, ?_, ?_, ?_⟩
  · have hfree := free_after_acquires n k (Nat.le_of_lt hk)
    obtain ⟨i, hi, -⟩ := acquire_success hinvk (by omega)
    rw [hi]
    rfl
  · have hfree := free_after_acquires n n le_rfl
    have := acquire_exhausted hinvn (by omega)
    rw [this]
  · have hinvn' := hinvn
    obtain ⟨ht, hl, hc⟩ := hinvn'
    have hfree := free_after_acquires n n le_rfl
    have hz : countTrue (runOps (initPool n) (List.replicate n PoolOp.acquire)).available = 0 := by
      unfold getAvailableBuffers at hfree
      omega
    have hib : p < (runOps (initPool n) (List.replicate n PoolOp.acquire)).available.length := by
      omega
    have hget : (runOps (initPool n) (List.replicate n PoolOp.acquire)).available[p]? = some false := by
      rw [List.getElem?_eq_getElem hib]
      have hnm : ¬(true ∈ (runOps (initPool n) (List.replicate n PoolOp.acquire)).available) := by
        intro hmem
        have := (countTrue_pos_iff _).mpr hmem
        omega
      cases hv : (runOps (initPool n) (List.replicate n PoolOp.acquire)).available[p] with
      | false => rfl
      | true => exact absurd (hv ▸ List.getElem_mem hib) hnm
    have hrel : releaseBuffer (runOps (initPool n) (List.replicate n PoolOp.acquire)) (some p) =
        { runOps (initPool n) (List.replicate n PoolOp.acquire) with
          available := (runOps (initPool n) (List.replicate n PoolOp.acquire)).available.set p true,
          used := (runOps (initPool n) (List.replicate n PoolOp.acquire)).used - 1 } := by
      rw [releaseBuffer_some, if_pos (by omega), if_neg (by simp [hget])]
    have hinv' := poolInv_release (p := some p) hinvn
    rw [hrel] at hinv' ⊢
    have hfree' : 0 < getAvailableBuffers
        { runOps (initPool n) (List.replicate n PoolOp.acquire) with
          available := (runOps (initPool n) (List.replicate n PoolOp.acquire)).available.set p true,
          used := (runOps (initPool n) (List.replicate n PoolOp.acquire)).used - 1 } := by
      unfold getAvailableBuffers
      simp only
      rw [countTrue_set_true _ p hget]
      omega
    obtain ⟨i, hi, -⟩ := acquire_success hinv' hfree'
    rw [hi]
    rfl

/-- Concrete run of C2 on a pool of 2 buffers: the second acquire succeeds,
the third returns `nullptr`, and an acquire after releasing buffer 0 of the
exhausted pool succeeds again. -/
theorem pool_acquire_spec_witness :
    (acquireBuffer (runOps (initPool 2) (List.replicate 1 PoolOp.acquire))).1.isSome = true ∧
    (acquireBuffer (runOps (initPool 2) (List.replicate 2 PoolOp.acquire))).1 = none ∧
    (acquireBuffer (releaseBuffer
        (runOps (initPool 2) (List.replicate 2 PoolOp.acquire)) (some 0))).1.isSome = true := by
  obtain ⟨-, -, h3, h4, h5⟩ :=
    pool_acquire_spec 2 (initPool 2) (poolInv_init 2) 1 0 (by decide) (by decide)
  exact ⟨h3, h4, h5⟩

/-- C3: a second `ReleaseBuffer` of the same buffer is detected as a double
release and changes nothing (releasing an already-free slot is the identity
on the pool state), and `ReleaseBuffer` of a pointer not belonging to the
pool changes nothing. -/
theorem pool_release_spec (n : Nat) (s : PoolState) (hs : PoolInv n s) (p : Nat) :
    (p < s.total → s.available.getD p false = true → releaseBuffer s (some p) = s) ∧
    (s.total ≤ p → releaseBuffer s (some p) = s) ∧
    (p < s.total →
      releaseBuffer (releaseBuffer s (some p)) (some p) = releaseBuffer s (some p)) := by
  obtain ⟨ht, hl, hc⟩ := hs
  refine ⟨?_, ?_, ?_⟩
  · intro h1 h2
    rw [releaseBuffer_some, if_pos h1, if_pos h2]
  · intro h1
    rw [releaseBuffer_some, if_neg (by omega)]
  · intro h1
    cases hav : s.available.getD p false with
    | true =>
      have hid : releaseBuffer s (some p) = s := by
        rw [releaseBuffer_some, if_pos h1, if_pos hav]
      rw [hid, hid]
    | false =>
      have hib : p < s.available.length := by omega
      have hrel : releaseBuffer s (some p) =
          { s with available := s.available.set p true, used := s.used - 1 } := by
        rw [releaseBuffer_some, if_pos h1, if_neg (by rw [hav]; simp)]
      rw [hrel]
      have hgd : ((s.available.set p true).getD p false) = true := by
        rw [List.getD_eq_getElem?_getD, List.getElem?_set_self hib]
        rfl
      rw [releaseBuffer_some, if_pos h1, if_pos hgd]

/-- Concrete run of C3: on a one-buffer pool whose buffer is in use, the
second release of buffer 0 is a no-op, and releasing foreign pointer 5 leaves
the state unchanged. -/
theorem pool_release_spec_witness :
    releaseBuffer (releaseBuffer
        { available := [false], used := 1, total := 1 } (some 0)) (some 0) =
      releaseBuffer { available := [false], used := 1, total := 1 } (some 0) ∧
    releaseBuffer { available := [false], used := 1, total := 1 } (some 5) =
      { available := [false], used := 1, total := 1 } := by
  have h0 := pool_release_spec 1 ⟨[false], 1, 1⟩ ⟨rfl, rfl, rfl⟩ 0
  have h5 := pool_release_spec 1 ⟨[false], 1, 1⟩ ⟨rfl, rfl, rfl⟩ 5
  exact ⟨h0.2.2 (by decide), h5.2.1 (by decide)⟩

/-! ## Pool health (C5) and monitor health (C4) -/

/-- C5 (code bug): `NVMMBufferManager::IsHealthy` computes the 20% headroom
threshold with floor division (`total_buffers / 5`), contradicting its own
comment ("at least 20% buffers available") and the spec's `free ≥ ⌈N/5⌉`:
after 5 acquires on a pool of 6, only 1 of 6 buffers (16.7%) is free, which
is below the 20% ceiling threshold `⌈6/5⌉ = 2`, yet the code reports the
pool healthy because `1 ≥ 6 / 5 = 1`. -/
theorem pool_isHealthy_floor_bug :
    poolIsHealthy (runOps (initPool 6) (List.replicate 5 PoolOp.acquire)) = true ∧
    getAvailableBuffers (runOps (initPool 6) (List.replicate 5 PoolOp.acquire)) = 1 ∧
    (runOps (initPool 6) (List.replicate 5 PoolOp.acquire)).total = 6 ∧
    (1 : Nat) < (6 + 5 - 1) / 5 := by
  decide

/-- C4 counterexample: the claimed equivalence
`IsHealthy ↔ running ∧ drops = 0 ∧ pool healthy ∧ pipelines not in
Error/Recovery` is false: in a snapshot whose monitor is running with zero
drops but whose camera-0 pipeline is in Error (and whose pool has no free
buffer out of 5), `PipelineMonitor::IsHealthy` still returns `true`. -/
theorem monitor_claim_counterexample :
    monitorIsHealthy
      (SystemSnapshot.mk ⟨0, 0, true⟩
        { available := [false, false, false, false, false], used := 5, total := 5 }
        CaptureState.error CaptureState.recording).monitor = true ∧
    ¬ specHealthy
      (SystemSnapshot.mk ⟨0, 0, true⟩
        { available := [false, false, false, false, false], used := 5, total := 5 }
        CaptureState.error CaptureState.recording) := by
  refine ⟨rfl, ?_⟩
  decide

/-- C4 (amended): `PipelineMonitor::IsHealthy` returns `true` iff the monitor
is running and the total dropped-frame count across both cameras is zero; it
consults neither the buffer pool nor the capture-pipeline states (its result
on a system snapshot depends only on the monitor component). -/
theorem monitor_isHealthy_iff (sys : SystemSnapshot) :
    (monitorIsHealthy sys.monitor = true ↔
      sys.monitor.running = true ∧
      sys.monitor.framesDropped0 + sys.monitor.framesDropped1 = 0) ∧
    (∀ pool pool' p0 p0' p1 p1',
      monitorIsHealthy (SystemSnapshot.mk sys.monitor pool p0 p1).monitor =
        monitorIsHealthy (SystemSnapshot.mk sys.monitor pool' p0' p1').monitor) := by
  constructor
  · simp [monitorIsHealthy, getTotalFrameDrops, Bool.and_eq_true, beq_iff_eq]
  · intro pool pool' p0 p0' p1 p1'
    rfl

/-- Concrete run of C4's amended statement: a stopped monitor with one drop
on camera 1 is unhealthy. -/
theorem monitor_isHealthy_iff_witness :
    (monitorIsHealthy
        (SystemSnapshot.mk ⟨0, 1, false⟩ (initPool 6)
          CaptureState.recording CaptureState.recording).monitor = true ↔
      (SystemSnapshot.mk ⟨0, 1, false⟩ (initPool 6)
          CaptureState.recording CaptureState.recording).monitor.running = true ∧
      (SystemSnapshot.mk ⟨0, 1, false⟩ (initPool 6)
          CaptureState.recording CaptureState.recording).monitor.framesDropped0 +
        (SystemSnapshot.mk ⟨0, 1, false⟩ (initPool 6)
          CaptureState.recording CaptureState.recording).monitor.framesDropped1 = 0) ∧
    (∀ pool pool' p0 p0' p1 p1',
      monitorIsHealthy (SystemSnapshot.mk ⟨0, 1, false⟩ pool p0 p1).monitor =
        monitorIsHealthy (SystemSnapshot.mk ⟨0, 1, false⟩ pool' p0' p1').monitor) :=
  monitor_isHealthy_iff
    (SystemSnapshot.mk ⟨0, 1, false⟩ (initPool 6)
      CaptureState.recording CaptureState.recording)

/-! ## StreamSync (C6, C7, C10) -/

/-- For timestamps below `2^63` (all realistic nanosecond clocks), the
wrapped `uint64`-to-`int64` drift is the exact mathematical difference. -/
theorem driftOf_eq (t0 t1 : Nat) (h0 : t0 < 2 ^ 63) (h1 : t1 < 2 ^ 63) :
    driftOf t0 t1 = (t0 : Int) - (t1 : Int) := by
  unfold driftOf
  by_cases hle : t1 ≤ t0
  · have hv : (t0 + 2 ^ 64 - t1) % 2 ^ 64 = t0 - t1 := by omega
    rw [hv, if_pos (by omega)]
    omega
  · have hv : (t0 + 2 ^ 64 - t1) % 2 ^ 64 = 2 ^ 64 - (t1 - t0) := by omega
    rw [hv, if_neg (by omega)]
    have hc : ((2 ^ 64 - (t1 - t0) : Nat) : Int) = 2 ^ 64 - ((t1 - t0 : Nat) : Int) :=
      Nat.cast_sub (by omega)
    rw [hc, Nat.cast_sub (by omega)]
    push_cast
    ring

/-- `SyncFrame` on a two-stream synchronizer with an in-range `stream_id`,
with the branches of the source resolved. -/
theorem syncFrame_two (s : SyncState) (streamId t : Nat)
    (h2 : s.numStreams = 2) (hid : streamId < s.numStreams) :
    syncFrame s streamId t =
      (true,
        { s with
          lastTimestamps := s.lastTimestamps.set streamId t
          maxDriftNs := max s.maxDriftNs
            |driftOf ((s.lastTimestamps.set streamId t).getD 0 0)
              ((s.lastTimestamps.set streamId t).getD 1 0)|
          corrections :=
            if |driftOf ((s.lastTimestamps.set streamId t).getD 0 0)
                ((s.lastTimestamps.set streamId t).getD 1 0)| > 16000000
            then s.corrections + 1 else s.corrections }) := by
  unfold syncFrame
  rw [if_neg (by omega), if_pos h2]

/-- C6: on a two-stream synchronizer, an in-range `SyncFrame` call increments
`corrections` exactly when the absolute drift between the two recorded
timestamps — computed after storing the new one — exceeds 16 000 000 ns, and
leaves it unchanged otherwise. -/
theorem syncFrame_corrections_iff (s : SyncState) (streamId t : Nat)
    (h2 : s.numStreams = 2) (hid : streamId < 2)
    (hb0 : (s.lastTimestamps.set streamId t).getD 0 0 < 2 ^ 63)
    (hb1 : (s.lastTimestamps.set streamId t).getD 1 0 < 2 ^ 63) :
    (syncFrame s streamId t).2.corrections =
      (if 16000000 <
          |(((s.lastTimestamps.set streamId t).getD 0 0 : Int)) -
            (((s.lastTimestamps.set streamId t).getD 1 0 : Int))|
        then s.corrections + 1 else s.corrections) := by
  rw [syncFrame_two s streamId t h2 (by omega)]
  simp only
  rw [driftOf_eq _ _ hb0 hb1]

/-- Concrete run of C6: from a fresh two-stream synchronizer, a frame putting
the drift at exactly 16 000 000 ns does not increment `corrections`, one
putting it at 16 000 001 ns does, and a frame making the two timestamps
equal counts no correction. -/
theorem syncFrame_corrections_witness :
    (syncFrame (initSync 2) 0 16000000).2.corrections = 0 ∧
    (syncFrame (initSync 2) 0 16000001).2.corrections = 1 ∧
    (syncFrame (SyncState.mk 2 [5, 5] 0 0) 1 5).2.corrections = 0 := by
  have ha := syncFrame_corrections_iff (initSync 2) 0 16000000 rfl
    (by decide) (by decide) (by decide)
  have hb := syncFrame_corrections_iff (initSync 2) 0 16000001 rfl
    (by decide) (by decide) (by decide)
  have hc := syncFrame_corrections_iff (SyncState.mk 2 [5, 5] 0 0)
    1 5 rfl (by decide) (by decide) (by decide)
  rw [ha, hb, hc]
  decide

/-- C7: on a two-stream synchronizer with realistic timestamps,
`GetSyncStatus` reports `is_synchronized = true` exactly when the absolute
drift is strictly below 33 000 000 ns, and reports confidence 1.0 when
synchronized and 0.5 otherwise. -/
theorem getSyncStatus_spec (s : SyncState) (h2 : s.numStreams = 2)
    (hb0 : s.lastTimestamps.getD 0 0 < 2 ^ 63)
    (hb1 : s.lastTimestamps.getD 1 0 < 2 ^ 63) :
    ((getSyncStatus s).isSynchronized = true ↔
      |((s.lastTimestamps.getD 0 0 : Int)) - ((s.lastTimestamps.getD 1 0 : Int))| <
        33000000) ∧
    (getSyncStatus s).syncConfidence =
      (if (getSyncStatus s).isSynchronized then (1 : Rat) else (1 : Rat) / 2) := by
  have hdrift : getTimestampDrift s =
      ((s.lastTimestamps.getD 0 0 : Int)) - ((s.lastTimestamps.getD 1 0 : Int)) := by
    unfold getTimestampDrift
    rw [if_neg (by omega), driftOf_eq _ _ hb0 hb1]
  constructor
  · simp only [getSyncStatus, hdrift]
    exact decide_eq_true_iff
  · rfl

/-- Concrete run of C7: a drift of exactly 33 000 000 ns reports
`synchronized = false` with confidence 0.5. -/
theorem getSyncStatus_witness :
    ((getSyncStatus (SyncState.mk 2 [33000000, 0] 0 0)).isSynchronized = true ↔
      |((((SyncState.mk 2 [33000000, 0] 0 0).lastTimestamps.getD 0 0 : Nat) : Int)) -
        ((((SyncState.mk 2 [33000000, 0] 0 0).lastTimestamps.getD 1 0 : Nat) : Int))| <
        33000000) ∧
    (getSyncStatus (SyncState.mk 2 [33000000, 0] 0 0)).syncConfidence =
      (if (getSyncStatus (SyncState.mk 2 [33000000, 0] 0 0)).isSynchronized
        then (1 : Rat) else (1 : Rat) / 2) :=
  getSyncStatus_spec (SyncState.mk 2 [33000000, 0] 0 0) rfl (by decide) (by decide)

/-- C10: `SyncFrame` with a `stream_id` at or beyond the configured stream
count returns `false` and leaves the synchronizer state entirely unchanged —
no timestamp write, no correction count, no max-drift update. -/
theorem syncFrame_out_of_range (s : SyncState) (streamId t : Nat)
    (h : s.numStreams ≤ streamId) : syncFrame s streamId t = (false, s) := by
  unfold syncFrame
  rw [if_pos (by omega)]

/-- Concrete run of C10: stream id 2 on a two-stream synchronizer is
rejected without a state change. -/
theorem syncFrame_out_of_range_witness :
    syncFrame (initSync 2) 2 999 = (false, initSync 2) :=
  syncFrame_out_of_range (initSync 2) 2 999 (by decide)

/-! ## CameraControl setters (C8) and RecoverySystem (C9) -/

/-- C8: each camera setter accepts a value exactly when it lies in its closed
range — exposure `[500, 2000]` µs, gain `[1.0, 4.0]`, frame rate `[1, 60]` —
and every rejected call returns `false` leaving the stored settings
untouched. -/
theorem camera_setters_spec (c : CameraState) (e : Nat) (g : Rat) (f : Nat) :
    ((setExposure c e).1 = true ↔ 500 ≤ e ∧ e ≤ 2000) ∧
    ((setExposure c e).1 = false → (setExposure c e).2 = c) ∧
    ((setGain c g).1 = true ↔ 1 ≤ g ∧ g ≤ 4) ∧
    ((setGain c g).1 = false → (setGain c g).2 = c) ∧
    ((setFrameRate c f).1 = true ↔ 1 ≤ f ∧ f ≤ 60) ∧
    ((setFrameRate c f).1 = false → (setFrameRate c f).2 = c) := by
  unfold setExposure setGain setFrameRate
  refine ⟨?_, ?_, ?_, ?_, ?_, ?_⟩
  · split
    · rename_i h; simp; omega
    · rename_i h; simp; omega
  · split
    · intro _; rfl
    · intro h; simp at h
  · split
    · rename_i h
      constructor
      · intro htrue
        exact absurd htrue (by simp)
      · rintro ⟨h1, h4⟩
        exfalso
        rcases h with h | h <;> linarith
    · rename_i h
      push_neg at h
      exact ⟨fun _ => h, fun _ => rfl⟩
  · split
    · intro _; rfl
    · intro h; simp at h
  · split
    · rename_i h; simp; omega
    · rename_i h; simp; omega
  · split
    · intro _; rfl
    · intro h; simp at h

/-- Concrete run of C8: exposure 2000 is accepted, exposure 2001, gain 0.99
and frame rate 61 are rejected without changing the stored settings. -/
theorem camera_setters_witness :
    (setExposure (CameraState.mk 1000 2 30) 2000).1 = true ∧
    (setExposure (CameraState.mk 1000 2 30) 2001).2 = CameraState.mk 1000 2 30 ∧
    (setGain (CameraState.mk 1000 2 30) (99 / 100)).2 = CameraState.mk 1000 2 30 ∧
    (setFrameRate (CameraState.mk 1000 2 30) 61).2 = CameraState.mk 1000 2 30 := by
  have hacc := camera_setters_spec (CameraState.mk 1000 2 30) 2000 (99 / 100) 61
  have hrej := camera_setters_spec (CameraState.mk 1000 2 30) 2001 (99 / 100) 61
  refine ⟨hacc.1.mpr (by norm_num), hrej.2.1 (by decide), ?_, ?_⟩
  · exact hacc.2.2.2.1 (by norm_num [setGain])
  · exact hacc.2.2.2.2.2 (by decide)

/-- C9: `RecoverySystem::DetermineAction` implements the startup recovery
table — `FULL_RESET` when no checkpoint exists; else `RESTART_PIPELINE` when
the checkpointed session state is Error; else `RESTART_ENCODER` when either
camera's checkpointed drop count exceeds 100; else `RESTART_PIPELINE`. -/
theorem determineAction_spec (r : RecoveryImpl) :
    (r.stateExists = false → determineAction r = RecoveryAction.fullReset) ∧
    (r.stateExists = true → r.lastState.state = PipelineState.error →
      determineAction r = RecoveryAction.restartPipeline) ∧
    (r.stateExists = true → r.lastState.state ≠ PipelineState.error →
      (100 < r.lastState.framesDropped0 ∨ 100 < r.lastState.framesDropped1) →
      determineAction r = RecoveryAction.restartEncoder) ∧
    (r.stateExists = true → r.lastState.state ≠ PipelineState.error →
      r.lastState.framesDropped0 ≤ 100 → r.lastState.framesDropped1 ≤ 100 →
      determineAction r = RecoveryAction.restartPipeline) := by
  unfold determineAction
  refine ⟨fun h1 => ?_, fun h1 h2 => ?_, fun h1 h2 h3 => ?_, fun h1 h2 h3 h4 => ?_⟩
  · rw [if_pos h1]
  · rw [if_neg (by simp [h1]), if_pos h2]
  · rw [if_neg (by simp [h1]), if_neg h2, if_pos (by omega)]
  · rw [if_neg (by simp [h1]), if_neg h2, if_neg (by omega)]

/-- Concrete run of C9: a checkpoint in state Recording with 150 drops on
camera 0 yields `RESTART_ENCODER`. -/
theorem determineAction_witness :
    determineAction
        (RecoveryImpl.mk true (RecordingStatus.mk PipelineState.recording 150 0)) =
      RecoveryAction.restartEncoder :=
  (determineAction_spec
      (RecoveryImpl.mk true (RecordingStatus.mk PipelineState.recording 150 0))).2.2.1
    rfl (by decide) (by decide)

end FootballVision
